import Mathlib

/-!
Verification of the `ai_navigator` path-planning engine.

Shallow embedding of the Python sources `ai_navigator/utils.py`,
`ai_navigator/collision_detector.py` and `ai_navigator/pathfinding.py`.
Python floats are modelled as real numbers; Python `int` as `ℕ`/`ℤ`.
Dictionaries keyed by grid points (integer-valued `Point`s, whose
tolerance-based equality coincides with exact equality on integers) are
modelled as functions `Cell → Option _`; `heapq` contents are modelled as
a list, where popping returns a minimal element in the lexicographic
order on `(f_score, counter)` (the third tuple component is never
compared by the source because insertion counters are pairwise distinct).
-/

noncomputable section

open Classical

/-- 2D point, `utils.py` `Point`: a pair of float coordinates. -/
structure Point where
  x : ℝ
  y : ℝ

/-- `utils.euclidean_distance`: `sqrt((p1.x-p2.x)**2 + (p1.y-p2.y)**2)`. -/
def euclidean_distance (p q : Point) : ℝ :=
  Real.sqrt ((p.x - q.x) ^ 2 + (p.y - q.y) ^ 2)

/-- `Point.__eq__` from `utils.py`: coordinatewise difference strictly below
`0.001` in absolute value. -/
def pointApproxEq (p q : Point) : Prop :=
  |p.x - q.x| < 0.001 ∧ |p.y - q.y| < 0.001

/-- Python `round(x, 3)`: the value of `x` rounded to three decimals
(rounding to nearest; the source's floats essentially never hit exact
ties, and none of the inputs used below do). -/
def round3 (x : ℝ) : ℝ := ((round (x * 1000) : ℤ) : ℝ) / 1000

/-- `Point.__hash__` from `utils.py`: `hash((round(x,3), round(y,3)))`,
modelled as the pair of rounded coordinates. -/
def pointHash (p : Point) : ℝ × ℝ := (round3 p.x, round3 p.y)

/-- `collision_detector.py` `Obstacle`: center, size (diameter) and the
stored derived radius. -/
structure Obstacle where
  center : Point
  size : ℝ
  radius : ℝ

/-- `Obstacle.__init__(x, y, size)`: `center = Point(x,y)`, `radius = size/2`. -/
def Obstacle.make (x y size : ℝ) : Obstacle :=
  ⟨⟨x, y⟩, size, size / 2⟩

/-- Mutable state of `collision_detector.py` `CollisionDetector`.
A collision-history entry stores `(position, obstacle, safety_margin)`. -/
structure CollisionDetector where
  robot_radius : ℝ
  base_safety_margin : ℝ
  current_safety_margin : ℝ
  collision_count : ℤ
  collision_history : List (Point × Option Point × ℝ)

/-- `CollisionDetector.__init__(robot_radius, safety_margin)`. -/
def CollisionDetector.make (r m : ℝ) : CollisionDetector :=
  ⟨r, m, m, 0, []⟩

/-- `CollisionDetector.update_safety_margin(collision_count, increment)`:
sets `collision_count` and recomputes
`current_safety_margin = base_safety_margin + collision_count * increment`. -/
def update_safety_margin (d : CollisionDetector) (c : ℤ) (inc : ℝ) :
    CollisionDetector :=
  { d with
    collision_count := c
    current_safety_margin := d.base_safety_margin + (c : ℝ) * inc }

/-- `CollisionDetector.record_collision(robot_pos, obstacle_pos)`: appends
`(position, obstacle, current margin)` to the history; nothing else changes. -/
def record_collision (d : CollisionDetector) (pos : Point)
    (obsPos : Option Point) : CollisionDetector :=
  { d with
    collision_history :=
      d.collision_history ++ [(pos, obsPos, d.current_safety_margin)] }

/-- The state-mutating calls of the `CollisionDetector` API. -/
inductive DetectorOp where
  | update (c : ℤ) (inc : ℝ)
  | record (pos : Point) (obsPos : Option Point)

/-- Apply one mutating `CollisionDetector` call. -/
def applyOp (d : CollisionDetector) : DetectorOp → CollisionDetector
  | .update c inc => update_safety_margin d c inc
  | .record p o => record_collision d p o

/-- Apply a sequence of mutating `CollisionDetector` calls. -/
def applyOps (d : CollisionDetector) (ops : List DetectorOp) :
    CollisionDetector :=
  ops.foldl applyOp d

/-- `CollisionDetector.will_collide_with_obstacle`: strict comparison of the
distance to the obstacle center against
`robot_radius + obstacle.radius + current_safety_margin`. -/
def will_collide_with_obstacle (d : CollisionDetector) (p : Point)
    (o : Obstacle) : Prop :=
  euclidean_distance p o.center <
    d.robot_radius + o.radius + d.current_safety_margin

/-- `CollisionDetector.will_collide_with_any_obstacle`: the short-circuiting
OR over the obstacle list. -/
def will_collide_with_any_obstacle (d : CollisionDetector) (p : Point)
    (obs : List Obstacle) : Prop :=
  ∃ o ∈ obs, will_collide_with_obstacle d p o

/-- The loop bound of `is_path_clear`:
`num_checks = max(resolution, int(distance / resolution))` (the distance is
nonnegative, so Python's truncation toward zero is the floor). -/
def num_checks (res : ℕ) (dist : ℝ) : ℕ :=
  max res (⌊dist / (res : ℝ)⌋).toNat

/-- The points checked by `is_path_clear`: for `i = 0 .. num_checks`,
`t = i / num_checks` (0 when `num_checks` is 0) and the point
`start + t * (end - start)` componentwise. -/
def sample_points (s e : Point) (res : ℕ) : List Point :=
  let n := num_checks res (euclidean_distance s e)
  (List.range (n + 1)).map fun (i : ℕ) =>
    let t : ℝ := if 0 < n then (i : ℝ) / (n : ℝ) else 0
    ⟨s.x + t * (e.x - s.x), s.y + t * (e.y - s.y)⟩

/-- `CollisionDetector.is_path_clear(start, end, obstacles, resolution)`:
true immediately when the distance is zero, otherwise true iff no sampled
point collides with any obstacle. -/
def is_path_clear (d : CollisionDetector) (s e : Point)
    (obs : List Obstacle) (res : ℕ) : Prop :=
  euclidean_distance s e = 0 ∨
    ∀ p ∈ sample_points s e res, ¬ will_collide_with_any_obstacle d p obs

/-- A raw field value arriving from the transport layer: either a value on
which Python `float()` succeeds (carrying the converted result), or one on
which it raises `ValueError`/`TypeError`. -/
inductive RawVal where
  | conv (v : ℝ)
  | unconv

/-- `float()` applied to a raw value. -/
def toFloat : RawVal → Option ℝ
  | .conv v => some v
  | .unconv => none

/-- One raw obstacle record `{x, y, size}`; a missing key makes
`dict.get` return the default (`0` for `x`/`y`, `25` for `size`). -/
structure RawRecord where
  x : Option RawVal
  y : Option RawVal
  size : Option RawVal

/-- The body of the `try` block of `parse_obstacles_from_api` for one
record: all three conversions must succeed, otherwise the record is
skipped (the `except` branch). -/
def parse_obstacle (r : RawRecord) : Option Obstacle :=
  match toFloat (r.x.getD (.conv 0)), toFloat (r.y.getD (.conv 0)),
      toFloat (r.size.getD (.conv 25)) with
  | some a, some b, some s => some (Obstacle.make a b s)
  | _, _, _ => none

/-- `CollisionDetector.parse_obstacles_from_api`: the accumulation loop,
appending each successfully converted record and `continue`-ing past each
failing one. -/
def parse_obstacles_from_api : List RawRecord → List Obstacle
  | [] => []
  | r :: rest =>
    match parse_obstacle r with
    | some o => o :: parse_obstacles_from_api rest
    | none => parse_obstacles_from_api rest

/-- Default `Point` used only to totalize list indexing (every access the
source performs is in bounds). -/
def dfltPoint : Point := ⟨0, 0⟩

/-- The inner scan of `smooth_path`: starting from `j = i + 2`, return the
first index `j < path.length` at which `clear path[i] path[j]` fails
(the loop's `break`), or `path.length` when the scan runs off the end.
The fuel argument is called with `path.length`, which always suffices. -/
def firstBlocked (clear : Point → Point → Prop) (p : List Point) (i : ℕ) :
    ℕ → ℕ → ℕ
  | 0, j => j
  | fuel + 1, j =>
    if j < p.length then
      if clear (p.getD i dfltPoint) (p.getD j dfltPoint) then
        firstBlocked clear p i fuel (j + 1)
      else j
    else j

/-- The outer `while` loop of `smooth_path`: from index `i`, the furthest
directly reachable index is `firstBlocked - 1` (at least `i + 1`); append
that waypoint and continue from it until `i` reaches the last index.
Fuel `path.length` always suffices since the index strictly increases. -/
def smoothAux (clear : Point → Point → Prop) (p : List Point) :
    ℕ → ℕ → List Point
  | 0, _ => []
  | fuel + 1, i =>
    if i < p.length - 1 then
      let fr := firstBlocked clear p i p.length (i + 2) - 1
      p.getD fr dfltPoint :: smoothAux clear p fuel fr
    else []

/-- `AStarPathfinder.smooth_path`, generic in the segment-clearance
predicate: paths of length ≤ 2 are returned unchanged, otherwise the
start point followed by the greedily selected waypoints. -/
def smooth_pathG (clear : Point → Point → Prop) (p : List Point) :
    List Point :=
  if p.length ≤ 2 then p
  else p.getD 0 dfltPoint :: smoothAux clear p p.length 0

/-- `AStarPathfinder.smooth_path` with the source's clearance check
`is_path_clear(path[i], path[j], obstacles)` at the default resolution 5. -/
def smooth_path (d : CollisionDetector) (obs : List Obstacle)
    (p : List Point) : List Point :=
  smooth_pathG (fun a b => is_path_clear d a b obs 5) p

/-- Grid cell: integer pair. The source stores cells as integer-valued
`Point`s, on which the tolerance equality and rounding hash coincide with
exact equality, so `ℤ × ℤ` is a faithful model. -/
abbrev Cell := ℤ × ℤ

/-- The `AStarPathfinder` configuration fields read by `find_path`. -/
structure PathEnv where
  canvas_width : ℕ
  canvas_height : ℕ
  grid_size : ℕ
  grid_width : ℕ
  grid_height : ℕ

/-- `AStarPathfinder.__init__`: grid dimensions are the floor quotients of
the canvas dimensions by the grid size. -/
def PathEnv.make (w h gs : ℕ) : PathEnv := ⟨w, h, gs, w / gs, h / gs⟩

/-- `world_to_grid`: componentwise floor division by the grid size. -/
def world_to_grid (env : PathEnv) (p : Point) : Cell :=
  (⌊p.x / (env.grid_size : ℝ)⌋, ⌊p.y / (env.grid_size : ℝ)⌋)

/-- `grid_to_world`: componentwise multiplication by the grid size (the
cell's lower corner). -/
def grid_to_world (env : PathEnv) (c : Cell) : Point :=
  ⟨(c.1 : ℝ) * (env.grid_size : ℝ), (c.2 : ℝ) * (env.grid_size : ℝ)⟩

/-- `is_valid_grid_point`: bounds check against the grid extent. -/
def is_valid_grid_point (env : PathEnv) (c : Cell) : Prop :=
  0 ≤ c.1 ∧ c.1 < (env.grid_width : ℤ) ∧ 0 ≤ c.2 ∧ c.2 < (env.grid_height : ℤ)

/-- `is_world_point_safe` (with a collision detector set). -/
def is_world_point_safe (d : CollisionDetector) (p : Point)
    (obs : List Obstacle) : Prop :=
  ¬ will_collide_with_any_obstacle d p obs

/-- `AStarPathfinder.heuristic`: dispatch on the heuristic-type string,
defaulting to the euclidean distance. -/
def heuristic (current goal : Point) (ht : String) : ℝ :=
  if ht = "manhattan" then |current.x - goal.x| + |current.y - goal.y|
  else if ht = "diagonal" then
    max |current.x - goal.x| |current.y - goal.y| +
      (Real.sqrt 2 - 1) * min |current.x - goal.x| |current.y - goal.y|
  else euclidean_distance current goal

/-- `get_movement_cost`: `gridSize·√2` when both absolute deltas equal the
grid size, else `gridSize`. -/
def get_movement_cost (env : PathEnv) (f t : Point) : ℝ :=
  if |f.x - t.x| = (env.grid_size : ℝ) ∧ |f.y - t.y| = (env.grid_size : ℝ) then
    Real.sqrt 2 * (env.grid_size : ℝ)
  else (env.grid_size : ℝ)

/-- The 8-connected neighbor offsets, in the source's enumeration order. -/
def directions : List (ℤ × ℤ) :=
  [(-1, -1), (-1, 0), (-1, 1), (0, -1), (0, 1), (1, -1), (1, 0), (1, 1)]

/-- An open-set entry `(f_score, counter, grid_point)`. -/
abbrev Entry := ℝ × ℕ × Cell

/-- The order `heapq` decides pops by on entries: lexicographic on
`(f_score, counter)`. The cell component is never reached because
insertion counters are pairwise distinct (comparing the cells would in
fact raise in the source, since `Point` defines no ordering). -/
def entryLe (a b : Entry) : Prop :=
  a.1 < b.1 ∨ (a.1 = b.1 ∧ a.2.1 ≤ b.2.1)

/-- `heapq.heappop`: removes and returns an entry that is minimal in the
queue; the remainder is the queue with that occurrence removed. -/
def PopMin (q : List Entry) (e : Entry) (q' : List Entry) : Prop :=
  (∃ l r, q = l ++ e :: r ∧ q' = l ++ r) ∧ ∀ e' ∈ q, entryLe e e'

/-- The mutable state of one `find_path` invocation. -/
structure AState where
  open_set : List Entry
  closed_set : Finset Cell
  came_from : Cell → Option Cell
  gScore : Cell → Option ℝ
  fScore : Cell → Option ℝ
  counter : ℕ
  iterations : ℕ

/-- The state after `find_path`'s initialization of the open set, score
maps and counter. -/
def initState (env : PathEnv) (start goal : Point) (ht : String) : AState :=
  let sg := world_to_grid env start
  let f0 := heuristic start goal ht
  { open_set := [(f0, 1, sg)]
    closed_set := ∅
    came_from := fun _ => none
    gScore := fun c => if c = sg then some 0 else none
    fScore := fun c => if c = sg then some f0 else none
    counter := 1
    iterations := 0 }

/-- One iteration of `find_path`'s neighbor loop for a single direction:
skip when out of bounds, unsafe, or closed; otherwise relax the g/f
scores and push onto the open set unless some entry for that cell is
already present. -/
def relax (env : PathEnv) (d : CollisionDetector) (goal_world : Point)
    (ht : String) (obs : List Obstacle) (closed : Finset Cell) (cur : Cell)
    (st : AState) (dir : ℤ × ℤ) : AState :=
  let n : Cell := (cur.1 + dir.1, cur.2 + dir.2)
  if ¬ is_valid_grid_point env n then st
  else if ¬ is_world_point_safe d (grid_to_world env n) obs then st
  else if n ∈ closed then st
  else
    let tentative := (st.gScore cur).getD 0 +
      get_movement_cost env (grid_to_world env cur) (grid_to_world env n)
    let better := match st.gScore n with
      | none => True
      | some g => tentative < g
    if better then
      let fn := tentative + heuristic (grid_to_world env n) goal_world ht
      let st' := { st with
        came_from := fun c => if c = n then some cur else st.came_from c
        gScore := fun c => if c = n then some tentative else st.gScore c
        fScore := fun c => if c = n then some fn else st.fScore c }
      if st.open_set.any (fun it => it.2.2 = n) then st'
      else { st' with
        counter := st'.counter + 1
        open_set := st'.open_set ++ [(fn, st'.counter + 1, n)] }
    else st

/-- The body of one `while` iteration after popping a non-goal entry `e`
(remaining queue `q'`): count the iteration, close the popped cell, and
process the eight neighbor directions in order. -/
def expand (env : PathEnv) (d : CollisionDetector) (goal_world : Point)
    (ht : String) (obs : List Obstacle) (st : AState) (e : Entry)
    (q' : List Entry) : AState :=
  let cur := e.2.2
  let closed' := insert cur st.closed_set
  let st0 := { st with
    open_set := q'
    closed_set := closed'
    iterations := st.iterations + 1 }
  directions.foldl (relax env d goal_world ht obs closed' cur) st0

/-- The `reconstruct_path` back-pointer walk (current cell first, then its
chain of predecessors). The source's `while` loop terminates because the
`came_from` tree is acyclic; the fuel bounds the walk far beyond the
longest chain any capped search can build (≤ 8·10000 assignments). -/
def reconstructAux (cf : Cell → Option Cell) : ℕ → Cell → List Cell
  | 0, c => [c]
  | fuel + 1, c =>
    match cf c with
    | none => [c]
    | some par => c :: reconstructAux cf fuel par

/-- `reconstruct_path`: walk the back-pointers, map cells to world
coordinates, and reverse. -/
def reconstruct_path (env : PathEnv) (cf : Cell → Option Cell) (c : Cell) :
    List Point :=
  ((reconstructAux cf 100000 c).map (grid_to_world env)).reverse

/-- A `find_path` outcome: the returned value (`None` on failure) paired
with the number of `while`-loop iterations the call consumed. -/
abbrev FPResult := Option (List Point) × ℕ

/-- The `while` loop of `find_path` as a big-step relation. Popping from
the heap is the only non-syntactic step (`PopMin`); everything else is
the deterministic `expand`. Iterations count exactly the executed loop
bodies; the cap is the source's `max_iterations = 10000`. -/
inductive Run (env : PathEnv) (d : CollisionDetector) (goal_grid : Cell)
    (goal_world : Point) (ht : String) (obs : List Obstacle) :
    AState → FPResult → Prop
  | exhausted (st : AState) :
      st.open_set = [] ∨ 10000 ≤ st.iterations →
      Run env d goal_grid goal_world ht obs st (none, st.iterations)
  | found (st : AState) (e : Entry) (q' : List Entry) :
      st.open_set ≠ [] → st.iterations < 10000 →
      PopMin st.open_set e q' → e.2.2 = goal_grid →
      Run env d goal_grid goal_world ht obs st
        (some (reconstruct_path env st.came_from e.2.2), st.iterations + 1)
  | step (st : AState) (e : Entry) (q' : List Entry) (out : FPResult) :
      st.open_set ≠ [] → st.iterations < 10000 →
      PopMin st.open_set e q' → e.2.2 ≠ goal_grid →
      Run env d goal_grid goal_world ht obs
        (expand env d goal_world ht obs st e q') out →
      Run env d goal_grid goal_world ht obs st out

/-- The two guard checks `find_path` performs before any search: both grid
cells in bounds, and both world points collision-free. -/
def find_path_precond (env : PathEnv) (d : CollisionDetector)
    (start goal : Point) (obs : List Obstacle) : Prop :=
  (is_valid_grid_point env (world_to_grid env start) ∧
      is_valid_grid_point env (world_to_grid env goal)) ∧
    (is_world_point_safe d start obs ∧ is_world_point_safe d goal obs)

/-- `AStarPathfinder.find_path`: on a failed precondition return `None`
having consumed zero loop iterations; otherwise run the search loop from
the initial state. -/
inductive FindPath (env : PathEnv) (d : CollisionDetector)
    (start goal : Point) (obs : List Obstacle) (ht : String) :
    FPResult → Prop
  | precondFail :
      ¬ find_path_precond env d start goal obs →
      FindPath env d start goal obs ht (none, 0)
  | run (out : FPResult) :
      find_path_precond env d start goal obs →
      Run env d (world_to_grid env goal) goal ht obs
        (initState env start goal ht) out →
      FindPath env d start goal obs ht out

/-- Counter discipline of the open set: every entry's counter is bounded
by the state's counter, and counters are pairwise distinct. -/
def CountersOk (q : List Entry) (bound : ℕ) : Prop :=
  (∀ e ∈ q, e.2.1 ≤ bound) ∧ q.Pairwise fun a b => a.2.1 ≠ b.2.1

/-- The `RefinedPathfinder` fields the fallback ladder can touch. The
search statistics fields are omitted: `find_path` writes only those, so
its effect on this record is the identity, and its returned value is
abstracted as a function parameter below. -/
structure Engine where
  canvas_width : ℕ
  canvas_height : ℕ
  grid_size : ℕ
  grid_width : ℕ
  grid_height : ℕ
  failed_attempts : ℕ
  strategies_used : List String

/-- `RefinedPathfinder._recalculate_grid_dimensions`. -/
def recalculate_grid_dimensions (e : Engine) : Engine :=
  { e with
    grid_width := e.canvas_width / e.grid_size
    grid_height := e.canvas_height / e.grid_size }

/-- `utils.is_point_in_bounds` with a margin. -/
def point_in_bounds (p : Point) (w h margin : ℕ) : Prop :=
  (margin : ℝ) ≤ p.x ∧ p.x < (w : ℝ) - (margin : ℝ) ∧
    (margin : ℝ) ≤ p.y ∧ p.y < (h : ℝ) - (margin : ℝ)

/-- `math.radians`. -/
def radians (deg : ℝ) : ℝ := deg * Real.pi / 180

/-- `range(0, 360, 45)` as degree values. -/
def ringAngles : List ℝ := [0, 45, 90, 135, 180, 225, 270, 315]

/-- `RefinedPathfinder._generate_intermediate_candidates`: ring points of
radius 30/60/100 around the start–goal midpoint at 45° steps, filtered to
bounds with a 20-unit margin, then the four 50-inset corners. -/
def generate_intermediate_candidates (e : Engine) (start goal : Point) :
    List Point :=
  let mx := (start.x + goal.x) / 2
  let my := (start.y + goal.y) / 2
  let ring := ([30, 60, 100] : List ℝ).flatMap fun r =>
    ringAngles.filterMap fun a =>
      let c : Point := ⟨mx + r * Real.cos (radians a),
        my + r * Real.sin (radians a)⟩
      if point_in_bounds c e.canvas_width e.canvas_height 20 then some c
      else none
  let cm : ℝ := 50
  ring ++
    [⟨cm, cm⟩, ⟨(e.canvas_width : ℝ) - cm, cm⟩,
      ⟨cm, (e.canvas_height : ℝ) - cm⟩,
      ⟨(e.canvas_width : ℝ) - cm, (e.canvas_height : ℝ) - cm⟩]

/-- The type of the abstracted `find_path` call used by the fallback
ladder: the engine configuration, start, goal, obstacles and heuristic
string determine the optional returned path. (The concrete `find_path`
never writes the `Engine` fields, so only its value is abstracted.) -/
abbrev FPFun := Engine → Point → Point → List Obstacle → String →
  Option (List Point)

/-- The candidate loop of `_find_path_via_intermediate_point`: first
candidate that is itself safe and admits both legs wins; both legs are
independent searches and the concatenation drops the duplicated shared
point before smoothing. -/
def try_intermediates (fp : FPFun) (d : CollisionDetector) (e : Engine)
    (obs : List Obstacle) (start goal : Point) :
    List Point → Option (List Point)
  | [] => none
  | c :: rest =>
    if ¬ is_world_point_safe d c obs then
      try_intermediates fp d e obs start goal rest
    else
      match fp e start c obs "euclidean" with
      | none => try_intermediates fp d e obs start goal rest
      | some p1 =>
        match fp e c goal obs "euclidean" with
        | none => try_intermediates fp d e obs start goal rest
        | some p2 => some (smooth_path d obs (p1 ++ p2.drop 1))

/-- `RefinedPathfinder._find_path_via_intermediate_point`. -/
def find_path_via_intermediate_point (fp : FPFun) (d : CollisionDetector)
    (e : Engine) (obs : List Obstacle) (start goal : Point) :
    Option (List Point) :=
  try_intermediates fp d e obs start goal
    (generate_intermediate_candidates e start goal)

/-- `RefinedPathfinder.find_path_with_fallbacks`, returning the engine
state after the call together with the optional path. `fp` abstracts
`find_path`'s returned value and `spn` abstracts
`get_safe_position_near_point` (neither touches the `Engine` fields in
the source). Strategy 3 halves the grid size (floor, minimum 5),
recalculates the dimensions, searches, then restores and recalculates
again before inspecting the result. -/
def find_path_with_fallbacks (fp : FPFun)
    (spn : Engine → Point → List Obstacle → Point) (d : CollisionDetector)
    (e0 : Engine) (start goal : Point) (obs : List Obstacle) :
    Engine × Option (List Point) :=
  let e := { e0 with strategies_used := [] }
  match fp e start goal obs "euclidean" with
  | some path =>
    ({ e with strategies_used := e.strategies_used ++ ["standard_astar"] },
      some (smooth_path d obs path))
  | none =>
    let e := { e with failed_attempts := e.failed_attempts + 1 }
    match fp e start goal obs "manhattan" with
    | some path =>
      ({ e with
          strategies_used := e.strategies_used ++ ["heuristic_manhattan"] },
        some (smooth_path d obs path))
    | none =>
      match fp e start goal obs "diagonal" with
      | some path =>
        ({ e with
            strategies_used := e.strategies_used ++ ["heuristic_diagonal"] },
          some (smooth_path d obs path))
      | none =>
        let s3 : Engine × Option (List Point) :=
          if 5 < e.grid_size then
            let original := e.grid_size
            let e1 := recalculate_grid_dimensions
              { e with grid_size := max 5 (e.grid_size / 2) }
            let found := fp e1 start goal obs "euclidean"
            let e2 := recalculate_grid_dimensions
              { e1 with grid_size := original }
            (e2, found)
          else (e, none)
        let e := s3.1
        match s3.2 with
        | some path =>
          ({ e with strategies_used := e.strategies_used ++ ["fine_grid"] },
            some (smooth_path d obs path))
        | none =>
          match find_path_via_intermediate_point fp d e obs start goal with
          | some p =>
            ({ e with
                strategies_used :=
                  e.strategies_used ++ ["intermediate_waypoint"] },
              some p)
          | none =>
            let safe_goal := spn e goal obs
            if ¬ pointApproxEq safe_goal goal then
              match fp e start safe_goal obs "euclidean" with
              | some path =>
                ({ e with
                    strategies_used := e.strategies_used ++ ["safe_goal"] },
                  some (smooth_path d obs path))
              | none => (e, none)
            else (e, none)

theorem sqrt_of_sq (a : ℝ) (h : 0 ≤ a) : Real.sqrt (a ^ 2) = a :=
  Real.sqrt_sq h

theorem le_sqrt_of_sq_le (a b : ℝ) (hb : 0 ≤ b) (h : b ^ 2 ≤ a) :
    b ≤ Real.sqrt a := by
  calc b = Real.sqrt (b ^ 2) := (Real.sqrt_sq hb).symm
    _ ≤ Real.sqrt a := Real.sqrt_le_sqrt h

/-- C1: `will_collide_with_obstacle` holds exactly when the euclidean
distance from the point to the obstacle center is strictly below
`robot_radius + obstacle.radius + current_safety_margin`; at exact
tangency it is false (the boundary is exclusive). -/
theorem claim_collides_strict_boundary (d : CollisionDetector) (p : Point)
    (o : Obstacle) :
    (will_collide_with_obstacle d p o ↔
      euclidean_distance p o.center <
        d.robot_radius + o.radius + d.current_safety_margin) ∧
    (euclidean_distance p o.center =
        d.robot_radius + o.radius + d.current_safety_margin →
      ¬ will_collide_with_obstacle d p o) := by
  refine ⟨Iff.rfl, fun h hc => ?_⟩
  rw [will_collide_with_obstacle, h] at hc
  exact lt_irrefl _ hc

/-- Witness for C1: robot radius 18, margin 10, obstacle of size 25 at the
origin, queried at `(40.5, 0)` — distance exactly `18 + 12.5 + 10`, not
colliding. -/
theorem claim_collides_strict_boundary_witness :
    euclidean_distance ⟨40.5, 0⟩ (Obstacle.make 0 0 25).center =
      (CollisionDetector.make 18 10).robot_radius +
        (Obstacle.make 0 0 25).radius +
        (CollisionDetector.make 18 10).current_safety_margin ∧
    ¬ will_collide_with_obstacle (CollisionDetector.make 18 10) ⟨40.5, 0⟩
      (Obstacle.make 0 0 25) := by
  have hd : euclidean_distance ⟨40.5, 0⟩ (Obstacle.make 0 0 25).center =
      (CollisionDetector.make 18 10).robot_radius +
        (Obstacle.make 0 0 25).radius +
        (CollisionDetector.make 18 10).current_safety_margin := by
    show Real.sqrt (((40.5 : ℝ) - 0) ^ 2 + ((0 : ℝ) - 0) ^ 2) =
      18 + 25 / 2 + 10
    rw [show ((40.5 : ℝ) - 0) ^ 2 + ((0 : ℝ) - 0) ^ 2 = 40.5 ^ 2 by norm_num,
      sqrt_of_sq 40.5 (by norm_num)]
    norm_num
  exact ⟨hd,
    (claim_collides_strict_boundary (CollisionDetector.make 18 10) ⟨40.5, 0⟩
      (Obstacle.make 0 0 25)).2 hd⟩

/-- C2: `update_safety_margin c k` leaves the margin at
`base + c * k`; `record_collision` (and more generally any sequence of
detector calls containing no `update`) never changes the margin; and the
concrete scenario — base margin 10, three recorded collisions, then
`update_safety_margin 3 5` — ends at margin 25. -/
theorem claim_safety_margin_invariant :
    (∀ (d : CollisionDetector) (c : ℤ) (k : ℝ),
      (update_safety_margin d c k).current_safety_margin =
        d.base_safety_margin + (c : ℝ) * k) ∧
    (∀ (d : CollisionDetector) (pos : Point) (op : Option Point),
      (record_collision d pos op).current_safety_margin =
        d.current_safety_margin) ∧
    (∀ (d : CollisionDetector) (ops : List DetectorOp),
      (∀ op ∈ ops, ∀ (c : ℤ) (k : ℝ), op ≠ .update c k) →
      (applyOps d ops).current_safety_margin = d.current_safety_margin) ∧
    (applyOps (CollisionDetector.make 18 10)
        [.record ⟨0, 0⟩ none, .record ⟨1, 1⟩ none, .record ⟨2, 2⟩ none,
          .update 3 5]).current_safety_margin = 25 := by
  refine ⟨fun d c k => rfl, fun d pos op => rfl, ?_, ?_⟩
  · intro d ops
    induction ops generalizing d with
    | nil => intro _; rfl
    | cons op rest ih =>
      intro h
      have hop := h op (by simp)
      have hrest : ∀ op' ∈ rest, ∀ (c : ℤ) (k : ℝ), op' ≠ .update c k :=
        fun op' hm => h op' (by simp [hm])
      cases op with
      | update c k => exact absurd rfl (hop c k)
      | record pos o =>
        rw [applyOps, List.foldl_cons, ← applyOps, ih _ hrest]
        rfl
  · norm_num [applyOps, applyOp, CollisionDetector.make,
      update_safety_margin, record_collision]

/-- Witness for C2: a sequence of two pure `record_collision` calls leaves
the margin of a fresh detector (base 10) unchanged. -/
theorem claim_safety_margin_invariant_witness :
    (applyOps (CollisionDetector.make 18 10)
        [.record ⟨5, 5⟩ none, .record ⟨6, 6⟩ (some ⟨1, 1⟩)]
      ).current_safety_margin =
      (CollisionDetector.make 18 10).current_safety_margin :=
  claim_safety_margin_invariant.2.2.1 (CollisionDetector.make 18 10)
    [.record ⟨5, 5⟩ none, .record ⟨6, 6⟩ (some ⟨1, 1⟩)]
    (by intro op hm c k; rcases List.mem_cons.1 hm with h | h
        · subst h; simp
        · rcases List.mem_cons.1 h with h' | h'
          · subst h'; simp
          · simp at h')

/-- C9 counterexample: at coordinates differing by exactly `1e-3` the
tolerance bound `≤ 1e-3` holds but the source's strict comparison makes
the points unequal; and the points `(0.0004, 0)` and `(0.0006, 0)` are
equal under the source's equality yet hash differently (they round to
`0.0` and `0.001`). -/
theorem claim_point_eq_hash_cex :
    (|(0.001 : ℝ) - 0| ≤ 0.001 ∧ |(0 : ℝ) - 0| ≤ 0.001 ∧
      ¬ pointApproxEq ⟨0.001, 0⟩ ⟨0, 0⟩) ∧
    (pointApproxEq ⟨0.0004, 0⟩ ⟨0.0006, 0⟩ ∧
      pointHash ⟨0.0004, 0⟩ ≠ pointHash ⟨0.0006, 0⟩) := by
  have h4 : round ((0.0004 : ℝ) * 1000) = 0 := by
    rw [round_eq]
    norm_num
  have h6 : round ((0.0006 : ℝ) * 1000) = 1 := by
    rw [round_eq]
    norm_num
  have habs : |(0.001 : ℝ) - 0| = 0.001 := by
    rw [sub_zero, abs_of_nonneg (by norm_num)]
  refine ⟨⟨by rw [habs], by norm_num, ?_⟩, ⟨⟨?_, ?_⟩, ?_⟩⟩
  · intro h
    have := h.1
    rw [pointApproxEq] at h
    have hx := h.1
    simp only at hx
    rw [habs] at hx
    exact lt_irrefl _ hx
  · show |(0.0004 : ℝ) - 0.0006| < 0.001
    rw [show (0.0004 : ℝ) - 0.0006 = -0.0002 by norm_num, abs_neg,
      abs_of_nonneg (by norm_num)]
    norm_num
  · show |(0 : ℝ) - 0| < 0.001
    norm_num
  · intro h
    have hx := congrArg Prod.fst h
    simp only [pointHash, round3, h4, h6] at hx
    norm_num at hx

/-- C9 amended: point equality is tolerance-based with a strict bound
(coordinates differing by strictly less than `1e-3` per axis), and the
hash — the pair of coordinates rounded to three decimals — agrees
whenever both rounded coordinates agree; full consistency of the hash
with the tolerance equality fails (see the counterexample). -/
theorem claim_point_eq_hash_amended (p q : Point) :
    (pointApproxEq p q ↔ |p.x - q.x| < 0.001 ∧ |p.y - q.y| < 0.001) ∧
    ((round3 p.x = round3 q.x ∧ round3 p.y = round3 q.y) →
      pointHash p = pointHash q) := by
  refine ⟨Iff.rfl, fun h => ?_⟩
  simp [pointHash, h.1, h.2]

/-- Witness for the amended C9 at the pair `((1,2), (1,2))`. -/
theorem claim_point_eq_hash_amended_witness :
    pointHash ⟨1, 2⟩ = pointHash ⟨1, 2⟩ :=
  (claim_point_eq_hash_amended ⟨1, 2⟩ ⟨1, 2⟩).2 ⟨rfl, rfl⟩

/-- C10: parsing equals filtering each record through the per-record
converter (every well-formed record yields its obstacle, in order), and
any single malformed record is skipped individually — removing it leaves
the parse of the remaining records, so it never aborts the set. -/
theorem claim_parse_obstacles_individual :
    (∀ l : List RawRecord,
      parse_obstacles_from_api l = l.filterMap parse_obstacle) ∧
    (∀ (l₁ l₂ : List RawRecord) (r : RawRecord), parse_obstacle r = none →
      parse_obstacles_from_api (l₁ ++ r :: l₂) =
        parse_obstacles_from_api (l₁ ++ l₂)) := by
  have hfm : ∀ l : List RawRecord,
      parse_obstacles_from_api l = l.filterMap parse_obstacle := by
    intro l
    induction l with
    | nil => rfl
    | cons r rest ih =>
      rw [parse_obstacles_from_api, List.filterMap_cons]
      cases h : parse_obstacle r <;> simp [h, ih]
  refine ⟨hfm, fun l₁ l₂ r hr => ?_⟩
  rw [hfm, hfm, List.filterMap_append, List.filterMap_append,
    List.filterMap_cons, hr]

/-- Witness for C10: one malformed record (an `x` value `float()` rejects)
between two well-formed ones is dropped while both neighbors survive. -/
theorem claim_parse_obstacles_individual_witness :
    parse_obstacles_from_api
        [⟨some (.conv 1), some (.conv 2), some (.conv 30)⟩,
          ⟨some .unconv, none, none⟩,
          ⟨none, none, some (.conv 40)⟩] =
      parse_obstacles_from_api
        [⟨some (.conv 1), some (.conv 2), some (.conv 30)⟩,
          ⟨none, none, some (.conv 40)⟩] :=
  claim_parse_obstacles_individual.2
    [⟨some (.conv 1), some (.conv 2), some (.conv 30)⟩]
    [⟨none, none, some (.conv 40)⟩] ⟨some .unconv, none, none⟩ rfl

/-- C8 counterexample: from `(0,0)` to `(3,4)` (distance exactly 5) at
resolution 5 the source samples `max(5, ⌊5/5⌋) + 1 = 6` points, not the
claimed `max(resolution, distance/resolution) = 5`. -/
theorem claim_path_clear_sample_count_cex :
    (sample_points ⟨0, 0⟩ ⟨3, 4⟩ 5).length ≠
      max 5 (⌊euclidean_distance ⟨0, 0⟩ ⟨3, 4⟩ / 5⌋).toNat := by
  have hdist : euclidean_distance ⟨0, 0⟩ ⟨3, 4⟩ = 5 := by
    show Real.sqrt (((0 : ℝ) - 3) ^ 2 + ((0 : ℝ) - 4) ^ 2) = 5
    rw [show ((0 : ℝ) - 3) ^ 2 + ((0 : ℝ) - 4) ^ 2 = 5 ^ 2 by norm_num,
      sqrt_of_sq 5 (by norm_num)]
  have hn : num_checks 5 (euclidean_distance ⟨0, 0⟩ ⟨3, 4⟩) = 5 := by
    rw [num_checks, hdist]
    norm_num
  have hlen : (sample_points ⟨0, 0⟩ ⟨3, 4⟩ 5).length = 6 := by
    rw [sample_points]
    simp only [List.length_map, List.length_range, hn]
  rw [hlen, hdist]
  norm_num

/-- C8 amended: for positive resolution, `is_path_clear` samples
`max(resolution, ⌊distance/resolution⌋) + 1` equally spaced points — the
first being the start and the last the end — and returns true iff the
distance is zero or none of the sampled points collides with any
obstacle (one more point than the claimed
`max(resolution, distance/resolution)`). -/
theorem claim_path_clear_sample_count (d : CollisionDetector)
    (s e : Point) (obs : List Obstacle) (res : ℕ) (hres : 0 < res) :
    ((sample_points s e res).length =
      max res (⌊euclidean_distance s e / (res : ℝ)⌋).toNat + 1) ∧
    (sample_points s e res).head? = some s ∧
    (sample_points s e res).getLast? = some e ∧
    (is_path_clear d s e obs res ↔ euclidean_distance s e = 0 ∨
      ∀ p ∈ sample_points s e res,
        ¬ will_collide_with_any_obstacle d p obs) := by
  have hn : 0 < num_checks res (euclidean_distance s e) :=
    lt_of_lt_of_le hres (le_max_left _ _)
  have hnR : ((num_checks res (euclidean_distance s e) : ℕ) : ℝ) ≠ 0 :=
    Nat.cast_ne_zero.2 hn.ne'
  refine ⟨?_, ?_, ?_, Iff.rfl⟩
  · rw [sample_points]
    simp only [List.length_map, List.length_range]
    rfl
  · rw [sample_points]
    simp only [List.head?_map, List.range_succ_eq_map, List.head?_cons,
      Option.map_some']
    rw [if_pos hn]
    cases s
    simp
  · rw [sample_points]
    simp only [List.getLast?_map, List.range_succ, List.getLast?_concat,
      Option.map_some']
    rw [if_pos hn, div_self hnR]
    cases e
    cases s
    simp only [Option.some.injEq, Point.mk.injEq]
    constructor <;> ring

/-- Witness for the amended C8 at start `(0,0)`, end `(3,4)`, resolution 5. -/
theorem claim_path_clear_sample_count_witness :
    ((sample_points ⟨0, 0⟩ ⟨3, 4⟩ 5).length =
      max 5 (⌊euclidean_distance ⟨0, 0⟩ ⟨3, 4⟩ / ((5 : ℕ) : ℝ)⌋).toNat + 1) ∧
    (sample_points ⟨0, 0⟩ ⟨3, 4⟩ 5).head? = some ⟨0, 0⟩ ∧
    (sample_points ⟨0, 0⟩ ⟨3, 4⟩ 5).getLast? = some ⟨3, 4⟩ ∧
    (is_path_clear (CollisionDetector.make 18 10) ⟨0, 0⟩ ⟨3, 4⟩ [] 5 ↔
      euclidean_distance ⟨0, 0⟩ ⟨3, 4⟩ = 0 ∨
      ∀ p ∈ sample_points ⟨0, 0⟩ ⟨3, 4⟩ 5,
        ¬ will_collide_with_any_obstacle (CollisionDetector.make 18 10) p []) :=
  claim_path_clear_sample_count (CollisionDetector.make 18 10) ⟨0, 0⟩ ⟨3, 4⟩
    [] 5 (by norm_num)

theorem firstBlocked_ge (clear : Point → Point → Prop) (p : List Point)
    (i : ℕ) : ∀ fuel j, j ≤ firstBlocked clear p i fuel j := by
  intro fuel
  induction fuel with
  | zero => intro j; rw [firstBlocked]
  | succ f ih =>
    intro j
    rw [firstBlocked]
    split
    · split
      · exact le_trans (Nat.le_succ j) (ih (j + 1))
      · exact le_refl j
    · exact le_refl j

theorem firstBlocked_le_length (clear : Point → Point → Prop)
    (p : List Point) (i : ℕ) :
    ∀ fuel j, j ≤ p.length → firstBlocked clear p i fuel j ≤ p.length := by
  intro fuel
  induction fuel with
  | zero => intro j hj; rw [firstBlocked]; exact hj
  | succ f ih =>
    intro j hj
    rw [firstBlocked]
    split
    · split
      · exact ih (j + 1) (by omega)
      · exact hj
    · exact hj

theorem smoothAux_stop (clear : Point → Point → Prop) (p : List Point)
    (fuel i : ℕ) (h : ¬ i < p.length - 1) :
    smoothAux clear p fuel i = [] := by
  cases fuel with
  | zero => rw [smoothAux]
  | succ f => rw [smoothAux, if_neg h]

theorem smoothAux_sublist (clear : Point → Point → Prop) (p : List Point) :
    ∀ fuel i, (smoothAux clear p fuel i).Sublist (p.drop (i + 1)) := by
  intro fuel
  induction fuel with
  | zero => intro i; rw [smoothAux]; exact List.nil_sublist _
  | succ f ih =>
    intro i
    rw [smoothAux]
    split
    · rename_i hi
      have hge : i + 2 ≤ firstBlocked clear p i p.length (i + 2) :=
        firstBlocked_ge clear p i p.length (i + 2)
      have hle : firstBlocked clear p i p.length (i + 2) ≤ p.length :=
        firstBlocked_le_length clear p i p.length (i + 2) (by omega)
      set fr := firstBlocked clear p i p.length (i + 2) - 1 with hfr
      have hfr1 : i + 1 ≤ fr := by omega
      have hfr2 : fr < p.length := by omega
      have hkey : p.drop fr = p.getD fr dfltPoint :: p.drop (fr + 1) := by
        rw [List.drop_eq_getElem_cons hfr2, List.getD_eq_getElem p _ hfr2]
      have hsub1 : (p.getD fr dfltPoint :: smoothAux clear p f fr).Sublist
          (p.drop fr) := by
        rw [hkey]
        exact (ih fr).cons₂ _
      have hdd : p.drop fr = List.drop (fr - (i + 1)) (p.drop (i + 1)) := by
        rw [List.drop_drop]
        congr 1
        omega
      refine hsub1.trans ?_
      rw [hdd]
      exact List.drop_sublist _ _
    · exact List.nil_sublist _

theorem smoothAux_ne_nil (clear : Point → Point → Prop) (p : List Point) :
    ∀ fuel i, i < p.length - 1 → p.length ≤ fuel + i + 1 →
      smoothAux clear p fuel i ≠ [] := by
  intro fuel i h1 h2
  cases fuel with
  | zero => omega
  | succ f =>
    rw [smoothAux, if_pos h1]
    exact List.cons_ne_nil _ _

theorem smoothAux_getLast (clear : Point → Point → Prop) (p : List Point) :
    ∀ fuel i, i < p.length - 1 → p.length ≤ fuel + i + 1 →
      (smoothAux clear p fuel i).getLast? =
        some (p.getD (p.length - 1) dfltPoint) := by
  intro fuel
  induction fuel with
  | zero => intro i h1 h2; omega
  | succ f ih =>
    intro i h1 h2
    rw [smoothAux, if_pos h1]
    have hge : i + 2 ≤ firstBlocked clear p i p.length (i + 2) :=
      firstBlocked_ge clear p i p.length (i + 2)
    have hle : firstBlocked clear p i p.length (i + 2) ≤ p.length :=
      firstBlocked_le_length clear p i p.length (i + 2) (by omega)
    set fr := firstBlocked clear p i p.length (i + 2) - 1 with hfr
    have hfr1 : i + 1 ≤ fr := by omega
    have hfr2 : fr ≤ p.length - 1 := by omega
    show (p.getD fr dfltPoint :: smoothAux clear p f fr).getLast? =
      some (p.getD (p.length - 1) dfltPoint)
    by_cases hgoal : fr < p.length - 1
    · have hrec := ih fr hgoal (by omega)
      have hmem : p.getD (p.length - 1) dfltPoint ∈
          (smoothAux clear p f fr).getLast? := by
        rw [hrec]; rfl
      exact List.mem_getLast?_cons hmem
    · have hfr3 : fr = p.length - 1 := by omega
      rw [smoothAux_stop clear p f fr hgoal, hfr3]
      rfl

/-- C7: for any path of length ≥ 2, `smooth_path` returns a subsequence of
the input that keeps the first and last waypoints, never grows the path,
and never shrinks it below 2. -/
theorem claim_smooth_subsequence (d : CollisionDetector)
    (obs : List Obstacle) (path : List Point) (h : 2 ≤ path.length) :
    (smooth_path d obs path).Sublist path ∧
    (smooth_path d obs path).head? = path.head? ∧
    (smooth_path d obs path).getLast? = path.getLast? ∧
    (smooth_path d obs path).length ≤ path.length ∧
    2 ≤ (smooth_path d obs path).length := by
  set clear := fun a b => is_path_clear d a b obs 5 with hclear
  by_cases hlen : path.length ≤ 2
  · have hid : smooth_path d obs path = path := by
      rw [smooth_path, smooth_pathG, if_pos hlen]
    rw [hid]
    exact ⟨List.Sublist.refl path, rfl, rfl, le_refl _, h⟩
  · have hlen3 : 3 ≤ path.length := by omega
    have h0 : 0 < path.length := by omega
    have hsm : smooth_path d obs path =
        path.getD 0 dfltPoint :: smoothAux clear path path.length 0 := by
      rw [smooth_path, smooth_pathG, if_neg hlen]
    have hpath : path = path.getD 0 dfltPoint :: path.drop 1 := by
      conv_lhs => rw [← List.drop_zero path]
      rw [List.drop_eq_getElem_cons h0, List.getD_eq_getElem path _ h0]
    have hsub : (smooth_path d obs path).Sublist path := by
      rw [hsm]
      conv_rhs => rw [hpath]
      exact (smoothAux_sublist clear path path.length 0).cons₂ _
    have hne : smoothAux clear path path.length 0 ≠ [] :=
      smoothAux_ne_nil clear path path.length 0 (by omega) (by omega)
    refine ⟨hsub, ?_, ?_, hsub.length_le, ?_⟩
    · rw [hsm]
      conv_rhs => rw [hpath]
      rfl
    · rw [hsm]
      have hlast := smoothAux_getLast clear path path.length 0 (by omega)
        (by omega)
      have hmem : path.getD (path.length - 1) dfltPoint ∈
          (smoothAux clear path path.length 0).getLast? := by
        rw [hlast]; rfl
      have hl1 := List.mem_getLast?_cons (y := path.getD 0 dfltPoint) hmem
      rw [Option.mem_def] at hl1
      rw [hl1, List.getLast?_eq_getElem?,
        List.getElem?_eq_getElem (by omega : path.length - 1 < path.length),
        List.getD_eq_getElem path _ (by omega : path.length - 1 < path.length)]
    · rw [hsm]
      have : 0 < (smoothAux clear path path.length 0).length :=
        List.length_pos.2 hne
      simp only [List.length_cons]
      omega

/-- Witness for C7 at the two-point path `[(0,0), (9,9)]` with no
obstacles. -/
theorem claim_smooth_subsequence_witness :
    (smooth_path (CollisionDetector.make 18 10) []
        [⟨0, 0⟩, ⟨9, 9⟩]).Sublist [⟨0, 0⟩, ⟨9, 9⟩] ∧
    (smooth_path (CollisionDetector.make 18 10) []
        [⟨0, 0⟩, ⟨9, 9⟩]).head? = ([⟨0, 0⟩, ⟨9, 9⟩] : List Point).head? ∧
    (smooth_path (CollisionDetector.make 18 10) []
        [⟨0, 0⟩, ⟨9, 9⟩]).getLast? =
      ([⟨0, 0⟩, ⟨9, 9⟩] : List Point).getLast? ∧
    (smooth_path (CollisionDetector.make 18 10) []
        [⟨0, 0⟩, ⟨9, 9⟩]).length ≤ ([⟨0, 0⟩, ⟨9, 9⟩] : List Point).length ∧
    2 ≤ (smooth_path (CollisionDetector.make 18 10) []
        [⟨0, 0⟩, ⟨9, 9⟩]).length :=
  claim_smooth_subsequence (CollisionDetector.make 18 10) []
    [⟨0, 0⟩, ⟨9, 9⟩] (by norm_num)

/-- C6 amended: smoothing is idempotent on every path of length at most 3
(for longer paths a second pass can remove further waypoints, because the
forward scan stops at the first blocked waypoint — see the
counterexample). -/
theorem claim_smooth_idempotent_short (d : CollisionDetector)
    (obs : List Obstacle) (path : List Point) (h : path.length ≤ 3) :
    smooth_path d obs (smooth_path d obs path) = smooth_path d obs path := by
  by_cases h2 : path.length ≤ 2
  · have hid : smooth_path d obs path = path := by
      rw [smooth_path, smooth_pathG, if_pos h2]
    rw [hid]
    exact hid
  · have h3 : path.length = 3 := by omega
    obtain ⟨a, b, c, rfl⟩ := List.length_eq_three.1 h3
    by_cases hac : is_path_clear d a c obs 5
    · have h1 : smooth_path d obs [a, b, c] = [a, c] := by
        rw [smooth_path, smooth_pathG]
        simp [smoothAux, firstBlocked, hac]
      have hshort : smooth_path d obs [a, c] = [a, c] := by
        rw [smooth_path, smooth_pathG]
        simp
      rw [h1, hshort]
    · have h1 : smooth_path d obs [a, b, c] = [a, b, c] := by
        rw [smooth_path, smooth_pathG]
        simp [smoothAux, firstBlocked, hac]
      rw [h1]
      exact h1

/-- Witness for the amended C6 at a three-point path with no obstacles. -/
theorem claim_smooth_idempotent_short_witness :
    smooth_path (CollisionDetector.make 18 10) []
        (smooth_path (CollisionDetector.make 18 10) []
          [⟨0, 0⟩, ⟨1, 1⟩, ⟨2, 2⟩]) =
      smooth_path (CollisionDetector.make 18 10) []
        [⟨0, 0⟩, ⟨1, 1⟩, ⟨2, 2⟩] :=
  claim_smooth_idempotent_short (CollisionDetector.make 18 10) []
    [⟨0, 0⟩, ⟨1, 1⟩, ⟨2, 2⟩] (by norm_num)

theorem no_collision_of_far (x y : ℝ)
    (hxy : 4 ≤ (x - 6) ^ 2 + y ^ 2) :
    ¬ will_collide_with_any_obstacle (CollisionDetector.make 1 0) ⟨x, y⟩
      [Obstacle.make 6 0 2] := by
  rintro ⟨o, ho, hcol⟩
  simp only [List.mem_singleton] at ho
  subst ho
  rw [will_collide_with_obstacle, euclidean_distance] at hcol
  have h2 : (2 : ℝ) ≤ Real.sqrt ((x - 6) ^ 2 + y ^ 2) :=
    le_sqrt_of_sq_le _ 2 (by norm_num) (by norm_num; linarith)
  norm_num [CollisionDetector.make, Obstacle.make] at hcol
  linarith

theorem smooth_cex_blocked :
    ¬ is_path_clear (CollisionDetector.make 1 0) ⟨0, 0⟩ ⟨8, 0⟩
      [Obstacle.make 6 0 2] 5 := by
  have hd : euclidean_distance ⟨0, 0⟩ ⟨8, 0⟩ = 8 := by
    rw [euclidean_distance]
    rw [show ((0 : ℝ) - 8) ^ 2 + ((0 : ℝ) - 0) ^ 2 = 8 ^ 2 by norm_num,
      sqrt_of_sq 8 (by norm_num)]
  have hn : num_checks 5 (euclidean_distance ⟨0, 0⟩ ⟨8, 0⟩) = 5 := by
    rw [num_checks, hd]
    norm_num
  intro h
  rcases h with h0 | hall
  · rw [hd] at h0
    norm_num at h0
  · have hmem : (⟨32 / 5, 0⟩ : Point) ∈ sample_points ⟨0, 0⟩ ⟨8, 0⟩ 5 := by
      rw [sample_points]
      simp only [hn]
      refine List.mem_map.2 ⟨4, by simp, ?_⟩
      norm_num
    have hcol : will_collide_with_any_obstacle (CollisionDetector.make 1 0)
        ⟨32 / 5, 0⟩ [Obstacle.make 6 0 2] := by
      refine ⟨Obstacle.make 6 0 2, by simp, ?_⟩
      show Real.sqrt (((32 : ℝ) / 5 - 6) ^ 2 + ((0 : ℝ) - 0) ^ 2) <
        1 + 2 / 2 + 0
      rw [show ((32 : ℝ) / 5 - 6) ^ 2 + ((0 : ℝ) - 0) ^ 2 = (2 / 5) ^ 2 by
          norm_num,
        sqrt_of_sq (2 / 5) (by norm_num)]
      norm_num
    exact hall _ hmem hcol

theorem smooth_cex_clear_bd :
    is_path_clear (CollisionDetector.make 1 0) ⟨4, 0⟩ ⟨0, 6⟩
      [Obstacle.make 6 0 2] 5 := by
  have hd : euclidean_distance ⟨4, 0⟩ ⟨0, 6⟩ = Real.sqrt 52 := by
    rw [euclidean_distance]
    norm_num
  have h1 : (5 : ℝ) ≤ Real.sqrt 52 :=
    le_sqrt_of_sq_le 52 5 (by norm_num) (by norm_num)
  have h2 : Real.sqrt 52 < 10 := (Real.sqrt_lt' (by norm_num)).2 (by norm_num)
  have hfl : ⌊Real.sqrt 52 / 5⌋ = 1 := by
    rw [Int.floor_eq_iff]
    constructor
    · rw [Int.cast_one, le_div_iff₀ (by norm_num : (0 : ℝ) < 5)]
      linarith
    · rw [div_lt_iff₀ (by norm_num : (0 : ℝ) < 5)]
      push_cast
      linarith
  have hn : num_checks 5 (euclidean_distance ⟨4, 0⟩ ⟨0, 6⟩) = 5 := by
    rw [num_checks, hd]
    norm_num [hfl]
  refine Or.inr fun p hp => ?_
  rw [sample_points] at hp
  simp only [hn, List.mem_map, List.mem_range] at hp
  obtain ⟨i, hi, hpt⟩ := hp
  subst hpt
  apply no_collision_of_far
  interval_cases i <;> norm_num

theorem smooth_cex_clear_ad :
    is_path_clear (CollisionDetector.make 1 0) ⟨0, 0⟩ ⟨0, 6⟩
      [Obstacle.make 6 0 2] 5 := by
  have hd : euclidean_distance ⟨0, 0⟩ ⟨0, 6⟩ = 6 := by
    rw [euclidean_distance]
    rw [show ((0 : ℝ) - 0) ^ 2 + ((0 : ℝ) - 6) ^ 2 = 6 ^ 2 by norm_num,
      sqrt_of_sq 6 (by norm_num)]
  have hn : num_checks 5 (euclidean_distance ⟨0, 0⟩ ⟨0, 6⟩) = 5 := by
    rw [num_checks, hd]
    norm_num
  refine Or.inr fun p hp => ?_
  rw [sample_points] at hp
  simp only [hn, List.mem_map, List.mem_range] at hp
  obtain ⟨i, hi, hpt⟩ := hp
  subst hpt
  apply no_collision_of_far
  interval_cases i <;> norm_num

/-- C6 counterexample: with one obstacle of size 2 at `(6,0)` (robot
radius 1, margin 0), smoothing the path
`[(0,0), (4,0), (8,0), (0,6)]` yields `[(0,0), (4,0), (0,6)]` — the scan
from `(0,0)` breaks at the blocked waypoint `(8,0)` — but smoothing again
yields `[(0,0), (0,6)]`, since the direct segment is clear. Smoothing is
therefore not idempotent. -/
theorem claim_smooth_idempotent_cex :
    smooth_path (CollisionDetector.make 1 0) [Obstacle.make 6 0 2]
        (smooth_path (CollisionDetector.make 1 0) [Obstacle.make 6 0 2]
          [⟨0, 0⟩, ⟨4, 0⟩, ⟨8, 0⟩, ⟨0, 6⟩]) ≠
      smooth_path (CollisionDetector.make 1 0) [Obstacle.make 6 0 2]
        [⟨0, 0⟩, ⟨4, 0⟩, ⟨8, 0⟩, ⟨0, 6⟩] := by
  have hs1 : smooth_path (CollisionDetector.make 1 0) [Obstacle.make 6 0 2]
      [⟨0, 0⟩, ⟨4, 0⟩, ⟨8, 0⟩, ⟨0, 6⟩] = [⟨0, 0⟩, ⟨4, 0⟩, ⟨0, 6⟩] := by
    rw [smooth_path, smooth_pathG]
    simp [smoothAux, firstBlocked, smooth_cex_blocked, smooth_cex_clear_bd]
  have hs2 : smooth_path (CollisionDetector.make 1 0) [Obstacle.make 6 0 2]
      [⟨0, 0⟩, ⟨4, 0⟩, ⟨0, 6⟩] = [⟨0, 0⟩, ⟨0, 6⟩] := by
    rw [smooth_path, smooth_pathG]
    simp [smoothAux, firstBlocked, smooth_cex_clear_ad]
  rw [hs1, hs2]
  simp

theorem entry_eq_of_le_le (a b : Entry) (h1 : entryLe a b)
    (h2 : entryLe b a) : a.1 = b.1 ∧ a.2.1 = b.2.1 := by
  rcases h1 with h | ⟨hf, hc⟩ <;> rcases h2 with h' | ⟨hf', hc'⟩
  · exact absurd h' (lt_asymm h)
  · exact absurd h (by rw [hf'] at h ⊢; exact lt_irrefl _)
  · exact absurd h' (by rw [hf] at h' ⊢; exact lt_irrefl _)
  · exact ⟨hf, le_antisymm hc hc'⟩

theorem mem_counter_unique (q : List Entry)
    (hq : q.Pairwise fun a b => a.2.1 ≠ b.2.1) (e₁ e₂ : Entry)
    (h₁ : e₁ ∈ q) (h₂ : e₂ ∈ q) (hc : e₁.2.1 = e₂.2.1) : e₁ = e₂ := by
  induction q with
  | nil => cases h₁
  | cons a l ih =>
    have hp := List.pairwise_cons.1 hq
    rcases List.mem_cons.1 h₁ with rfl | h₁' <;>
      rcases List.mem_cons.1 h₂ with rfl | h₂'
    · rfl
    · exact absurd hc (hp.1 e₂ h₂')
    · exact absurd hc.symm (hp.1 e₁ h₁')
    · exact ih hp.2 h₁' h₂'

theorem split_unique (e : Entry) : ∀ (l₁ l₂ r₁ r₂ : List Entry),
    l₁ ++ e :: r₁ = l₂ ++ e :: r₂ →
    (l₁ ++ e :: r₁).Pairwise (fun a b => a.2.1 ≠ b.2.1) →
    l₁ = l₂ ∧ r₁ = r₂ := by
  intro l₁
  induction l₁ with
  | nil =>
    intro l₂ r₁ r₂ heq hp
    cases l₂ with
    | nil =>
      simp only [List.nil_append, List.cons.injEq] at heq
      exact ⟨rfl, heq.2⟩
    | cons x l₂' =>
      rw [List.nil_append, List.cons_append] at heq
      injection heq with h1 h2
      exfalso
      have hpc := List.pairwise_cons.1 hp
      have hmem : e ∈ r₁ := by rw [h2]; simp
      exact hpc.1 e hmem rfl
  | cons x l₁' ih =>
    intro l₂ r₁ r₂ heq hp
    rw [List.cons_append] at hp
    have hpc := List.pairwise_cons.1 hp
    cases l₂ with
    | nil =>
      rw [List.cons_append, List.nil_append] at heq
      injection heq with h1 h2
      exfalso
      have hmem : e ∈ l₁' ++ e :: r₁ := by simp
      have hne := hpc.1 e hmem
      rw [h1] at hne
      exact hne rfl
    | cons y l₂' =>
      rw [List.cons_append, List.cons_append] at heq
      injection heq with h1 h2
      obtain ⟨hl, hr⟩ := ih l₂' r₁ r₂ h2 hpc.2
      exact ⟨by rw [h1, hl], hr⟩

theorem popMin_mem {q : List Entry} {e : Entry} {q' : List Entry}
    (h : PopMin q e q') : e ∈ q := by
  obtain ⟨⟨l, r, hq, _⟩, _⟩ := h
  rw [hq]
  simp

theorem popMin_unique (q : List Entry)
    (hq : q.Pairwise fun a b => a.2.1 ≠ b.2.1) {e₁ e₂ : Entry}
    {q₁ q₂ : List Entry} (h₁ : PopMin q e₁ q₁) (h₂ : PopMin q e₂ q₂) :
    e₁ = e₂ ∧ q₁ = q₂ := by
  have he₁ : e₁ ∈ q := popMin_mem h₁
  have he₂ : e₂ ∈ q := popMin_mem h₂
  obtain ⟨⟨l₁, r₁, hsplit₁, hrem₁⟩, hmin₁⟩ := h₁
  obtain ⟨⟨l₂, r₂, hsplit₂, hrem₂⟩, hmin₂⟩ := h₂
  have heq : e₁ = e₂ :=
    mem_counter_unique q hq e₁ e₂ he₁ he₂
      (entry_eq_of_le_le e₁ e₂ (hmin₁ e₂ he₂) (hmin₂ e₁ he₁)).2
  subst heq
  have hll : l₁ = l₂ ∧ r₁ = r₂ := by
    refine split_unique e₁ l₁ l₂ r₁ r₂ ?_ ?_
    · rw [← hsplit₁, ← hsplit₂]
    · rw [← hsplit₁]
      exact hq
  exact ⟨rfl, by rw [hrem₁, hrem₂, hll.1, hll.2]⟩

theorem popMin_sublist {q : List Entry} {e : Entry} {q' : List Entry}
    (h : PopMin q e q') : q'.Sublist q := by
  obtain ⟨⟨l, r, hq, hrem⟩, _⟩ := h
  rw [hq, hrem]
  exact (List.sublist_cons_self e r).append_left l

theorem countersOk_of_sublist {q q' : List Entry} {b : ℕ}
    (hs : q'.Sublist q) (h : CountersOk q b) : CountersOk q' b :=
  ⟨fun e he => h.1 e (hs.mem he), h.2.sublist hs⟩

theorem relax_countersOk (env : PathEnv) (d : CollisionDetector)
    (gw : Point) (ht : String) (obs : List Obstacle) (closed : Finset Cell)
    (cur : Cell) (st : AState) (dir : ℤ × ℤ)
    (h : CountersOk st.open_set st.counter) :
    CountersOk (relax env d gw ht obs closed cur st dir).open_set
      (relax env d gw ht obs closed cur st dir).counter := by
  simp only [relax]
  split
  · exact h
  · split
    · exact h
    · split
      · exact h
      · split
        · split
          · exact h
          · refine ⟨?_, ?_⟩
            · intro e' he'
              rcases List.mem_append.1 he' with h' | h'
              · exact le_trans (h.1 e' h') (Nat.le_succ _)
              · simp only [List.mem_singleton] at h'
                subst h'
                exact le_refl _
            · refine List.pairwise_append.2
                ⟨h.2, List.pairwise_singleton _ _, ?_⟩
              intro a ha b hb
              simp only [List.mem_singleton] at hb
              subst hb
              have ha' := h.1 a ha
              show a.2.1 ≠ st.counter + 1
              omega
        · exact h

theorem foldl_relax_countersOk (env : PathEnv) (d : CollisionDetector)
    (gw : Point) (ht : String) (obs : List Obstacle) (closed : Finset Cell)
    (cur : Cell) :
    ∀ (dirs : List (ℤ × ℤ)) (st : AState),
      CountersOk st.open_set st.counter →
      CountersOk
        (dirs.foldl (relax env d gw ht obs closed cur) st).open_set
        (dirs.foldl (relax env d gw ht obs closed cur) st).counter := by
  intro dirs
  induction dirs with
  | nil => intro st h; exact h
  | cons dd rest ih =>
    intro st h
    rw [List.foldl_cons]
    exact ih _ (relax_countersOk env d gw ht obs closed cur st dd h)

theorem expand_countersOk (env : PathEnv) (d : CollisionDetector)
    (gw : Point) (ht : String) (obs : List Obstacle) (st : AState)
    (e : Entry) (q' : List Entry) (hpop : PopMin st.open_set e q')
    (h : CountersOk st.open_set st.counter) :
    CountersOk (expand env d gw ht obs st e q').open_set
      (expand env d gw ht obs st e q').counter := by
  rw [expand]
  apply foldl_relax_countersOk
  exact countersOk_of_sublist (popMin_sublist hpop) h

theorem initState_countersOk (env : PathEnv) (start goal : Point)
    (ht : String) :
    CountersOk (initState env start goal ht).open_set
      (initState env start goal ht).counter := by
  refine ⟨?_, ?_⟩
  · intro e he
    simp only [initState, List.mem_singleton] at he
    subst he
    exact le_refl _
  · simp [initState]

theorem run_det (env : PathEnv) (d : CollisionDetector) (gg : Cell)
    (gw : Point) (ht : String) (obs : List Obstacle) :
    ∀ (st : AState) (out₁ : FPResult),
      Run env d gg gw ht obs st out₁ →
      ∀ out₂, Run env d gg gw ht obs st out₂ →
      CountersOk st.open_set st.counter → out₁ = out₂ := by
  intro st out₁ h₁
  induction h₁ with
  | exhausted st hstop =>
    intro out₂ h₂ hc
    cases h₂ with
    | exhausted _ => rfl
    | found _ e q' hne hiter hpop hgoal =>
      rcases hstop with h | h
      · exact absurd h hne
      · omega
    | step _ e q' out hne hiter hpop hgoal hrun =>
      rcases hstop with h | h
      · exact absurd h hne
      · omega
  | found st e q' hne hiter hpop hgoal =>
    intro out₂ h₂ hc
    cases h₂ with
    | exhausted _ hstop =>
      rcases hstop with h | h
      · exact absurd h hne
      · omega
    | found _ e₂ q₂ hne₂ hiter₂ hpop₂ hgoal₂ =>
      obtain ⟨he, hq⟩ := popMin_unique _ hc.2 hpop hpop₂
      rw [he]
    | step _ e₂ q₂ out₂' hne₂ hiter₂ hpop₂ hgoal₂ hrun₂ =>
      obtain ⟨he, hq⟩ := popMin_unique _ hc.2 hpop hpop₂
      rw [he] at hgoal
      exact absurd hgoal hgoal₂
  | step st e q' out hne hiter hpop hgoal hrun ih =>
    intro out₂ h₂ hc
    cases h₂ with
    | exhausted _ hstop =>
      rcases hstop with h | h
      · exact absurd h hne
      · omega
    | found _ e₂ q₂ hne₂ hiter₂ hpop₂ hgoal₂ =>
      obtain ⟨he, hq⟩ := popMin_unique _ hc.2 hpop hpop₂
      rw [← he] at hgoal₂
      exact absurd hgoal₂ hgoal
    | step _ e₂ q₂ out₂' hne₂ hiter₂ hpop₂ hgoal₂ hrun₂ =>
      obtain ⟨he, hq⟩ := popMin_unique _ hc.2 hpop hpop₂
      subst he
      subst hq
      exact ih out₂ hrun₂ (expand_countersOk env d gw ht obs st e q' hpop hc)

/-- C3: when the start or goal grid cell is out of bounds, or the start or
goal world point collides with an obstacle, `find_path` returns `None`
having consumed zero iterations of the search loop — and that is its only
possible outcome. -/
theorem claim_find_path_precondition (env : PathEnv)
    (d : CollisionDetector) (start goal : Point) (obs : List Obstacle)
    (ht : String) (h : ¬ find_path_precond env d start goal obs)
    (out : FPResult) :
    FindPath env d start goal obs ht out ↔ out = (none, 0) := by
  constructor
  · intro hfp
    cases hfp with
    | precondFail _ => rfl
    | run out hpre _ => exact absurd hpre h
  · rintro rfl
    exact FindPath.precondFail h

theorem demo_precond_fails :
    ¬ find_path_precond (PathEnv.make 650 600 10)
      (CollisionDetector.make 18 10) ⟨100, 100⟩ ⟨50, 50⟩
      [Obstacle.make 100 100 25] := by
  rintro ⟨-, hsafe, -⟩
  refine hsafe ⟨Obstacle.make 100 100 25, by simp, ?_⟩
  show Real.sqrt (((100 : ℝ) - 100) ^ 2 + ((100 : ℝ) - 100) ^ 2) <
    18 + 25 / 2 + 10
  rw [show (((100 : ℝ) - 100) ^ 2 + ((100 : ℝ) - 100) ^ 2) = 0 by norm_num,
    Real.sqrt_zero]
  norm_num

/-- Witness for C3: a 650×600 canvas with grid size 10, robot radius 18,
margin 10, one obstacle of size 25 at `(100,100)`, and the start placed
exactly on the obstacle center: the only outcome is `(None, 0)`. -/
theorem claim_find_path_precondition_witness :
    FindPath (PathEnv.make 650 600 10) (CollisionDetector.make 18 10)
      ⟨100, 100⟩ ⟨50, 50⟩ [Obstacle.make 100 100 25] "euclidean"
      (none, 0) :=
  (claim_find_path_precondition (PathEnv.make 650 600 10)
    (CollisionDetector.make 18 10) ⟨100, 100⟩ ⟨50, 50⟩
    [Obstacle.make 100 100 25] "euclidean" demo_precond_fails
    (none, 0)).mpr rfl

/-- C4: `find_path` is deterministic — identical start, goal, obstacles,
heuristic and safety state admit exactly one outcome (the heap pop is the
only non-syntactic step, and it is uniquely determined because insertion
counters are pairwise distinct) — and the pop is keyed by
`(f_score, counter)`: among entries sharing the popped entry's `f_score`,
the popped entry carries the least (i.e. earliest) insertion counter. -/
theorem claim_find_path_deterministic :
    (∀ (env : PathEnv) (d : CollisionDetector) (start goal : Point)
      (obs : List Obstacle) (ht : String) (out₁ out₂ : FPResult),
      FindPath env d start goal obs ht out₁ →
      FindPath env d start goal obs ht out₂ → out₁ = out₂) ∧
    (∀ (q : List Entry) (e : Entry) (q' : List Entry), PopMin q e q' →
      ∀ e' ∈ q, e'.1 = e.1 → e.2.1 ≤ e'.2.1) := by
  constructor
  · intro env d start goal obs ht out₁ out₂ h₁ h₂
    cases h₁ with
    | precondFail hp₁ =>
      cases h₂ with
      | precondFail hp₂ => rfl
      | run out₂ hpre₂ hrun₂ => exact absurd hpre₂ hp₁
    | run out₁ hpre₁ hrun₁ =>
      cases h₂ with
      | precondFail hp₂ => exact absurd hpre₁ hp₂
      | run out₂ hpre₂ hrun₂ =>
        exact run_det env d (world_to_grid env goal) goal ht obs _ out₁
          hrun₁ out₂ hrun₂ (initState_countersOk env start goal ht)
  · intro q e q' hpop e' he' hf
    rcases hpop.2 e' he' with h | ⟨hfe, hc⟩
    · rw [hf] at h
      exact absurd h (lt_irrefl _)
    · exact hc

/-- Witness for C4: two derivations on the concrete blocked input of the
C3 witness agree, and on the two-entry queue
`[(3, 1, (0,0)), (3, 2, (5,5))]` with equal f-scores the pop takes the
entry inserted first (counter 1 ≤ counter 2). -/
theorem claim_find_path_deterministic_witness :
    (((none : Option (List Point)), (0 : ℕ)) =
      ((none : Option (List Point)), (0 : ℕ))) ∧
    (3, 1, ((0 : ℤ), (0 : ℤ))).2.1 ≤ (3, 2, ((5 : ℤ), (5 : ℤ))).2.1 := by
  have hpop : PopMin [((3 : ℝ), 1, ((0 : ℤ), (0 : ℤ))),
      ((3 : ℝ), 2, ((5 : ℤ), (5 : ℤ)))] ((3 : ℝ), 1, ((0 : ℤ), (0 : ℤ)))
      [((3 : ℝ), 2, ((5 : ℤ), (5 : ℤ)))] := by
    refine ⟨⟨[], [((3 : ℝ), 2, ((5 : ℤ), (5 : ℤ)))], rfl, rfl⟩, ?_⟩
    intro e' he'
    rcases List.mem_cons.1 he' with rfl | he''
    · exact Or.inr ⟨rfl, le_refl _⟩
    · rcases List.mem_cons.1 he'' with rfl | h
      · exact Or.inr ⟨rfl, by norm_num⟩
      · cases h
  constructor
  · exact claim_find_path_deterministic.1 (PathEnv.make 650 600 10)
      (CollisionDetector.make 18 10) ⟨100, 100⟩ ⟨50, 50⟩
      [Obstacle.make 100 100 25] "euclidean" (none, 0) (none, 0)
      (FindPath.precondFail demo_precond_fails)
      (FindPath.precondFail demo_precond_fails)
  · exact claim_find_path_deterministic.2 _ _ _ hpop
      ((3 : ℝ), 2, ((5 : ℤ), (5 : ℤ))) (by simp) rfl

/-- C5: `find_path_with_fallbacks` leaves the engine's grid size and the
derived grid dimensions unchanged on every path — success or failure of
any strategy, for every possible behavior `fp` of the underlying search
and `spn` of the safe-position helper — assuming the dimensions were
derived from the grid size on entry (as the constructor and every
recalculation guarantee). In particular the finer-grid strategy restores
the original grid size regardless of its outcome. -/
theorem claim_fallbacks_restore_grid (fp : FPFun)
    (spn : Engine → Point → List Obstacle → Point) (d : CollisionDetector)
    (e : Engine) (start goal : Point) (obs : List Obstacle)
    (hw : e.grid_width = e.canvas_width / e.grid_size)
    (hh : e.grid_height = e.canvas_height / e.grid_size) :
    (find_path_with_fallbacks fp spn d e start goal obs).1.grid_size =
      e.grid_size ∧
    (find_path_with_fallbacks fp spn d e start goal obs).1.grid_width =
      e.grid_width ∧
    (find_path_with_fallbacks fp spn d e start goal obs).1.grid_height =
      e.grid_height := by
  rw [find_path_with_fallbacks]
  dsimp only
  split
  · exact ⟨rfl, rfl, rfl⟩
  · split
    · exact ⟨rfl, rfl, rfl⟩
    · split
      · exact ⟨rfl, rfl, rfl⟩
      · repeat'
          first
          | (exact ⟨rfl, rfl, rfl⟩)
          | (exact ⟨rfl, hw.symm, hh.symm⟩)
          | split

/-- Witness for C5: a concrete engine (650×600 canvas, grid size 10,
derived dimensions 65×60) with a search that always fails and an identity
safe-position helper keeps all three grid fields. -/
theorem claim_fallbacks_restore_grid_witness :
    (find_path_with_fallbacks (fun _ _ _ _ _ => none) (fun _ p _ => p)
        (CollisionDetector.make 18 10)
        ⟨650, 600, 10, 65, 60, 0, []⟩ ⟨50, 50⟩ ⟨550, 550⟩ []).1.grid_size =
      (⟨650, 600, 10, 65, 60, 0, []⟩ : Engine).grid_size ∧
    (find_path_with_fallbacks (fun _ _ _ _ _ => none) (fun _ p _ => p)
        (CollisionDetector.make 18 10)
        ⟨650, 600, 10, 65, 60, 0, []⟩ ⟨50, 50⟩ ⟨550, 550⟩ []).1.grid_width =
      (⟨650, 600, 10, 65, 60, 0, []⟩ : Engine).grid_width ∧
    (find_path_with_fallbacks (fun _ _ _ _ _ => none) (fun _ p _ => p)
        (CollisionDetector.make 18 10)
        ⟨650, 600, 10, 65, 60, 0, []⟩ ⟨50, 50⟩
        ⟨550, 550⟩ []).1.grid_height =
      (⟨650, 600, 10, 65, 60, 0, []⟩ : Engine).grid_height :=
  claim_fallbacks_restore_grid (fun _ _ _ _ _ => none) (fun _ p _ => p)
    (CollisionDetector.make 18 10) ⟨650, 600, 10, 65, 60, 0, []⟩
    ⟨50, 50⟩ ⟨550, 550⟩ [] (by norm_num) (by norm_num)
